import Mathlib

/-!
Verification development for the email-verification pipeline and the batch
orchestrator of the outreach application.  The definitions below are a
shallow embedding of the TypeScript source: the verify-email API route
(syntax validation, typo suggestion, role-account detection, disposable
domain check, MX gating, deliverability call, confidence aggregation) and
the bulk-results component (`verifyAllEmails`, single `verifyEmail`,
`retryFindEmail`).  Network effects (DNS MX resolution, the deliverability
provider, the per-record fetch calls of the batch loop) are modelled as
explicit oracles passed to the functions; thrown exceptions are modelled
with explicit outcome types.  String primitives (`split`, `toLowerCase`,
`startsWith`) are embedded as structural functions over the character
list of a string; lower-casing is ASCII lower-casing, which coincides
with the source's behavior on the ASCII alphabets involved here.
-/

set_option maxRecDepth 10000

/-- JavaScript optional values: a field can be `undefined`, `null`, or hold a
value.  `undefined` and `null` are distinct (the batch filter tests
`isVerified === undefined` strictly). -/
inductive JsVal (α : Type) where
  | undef : JsVal α
  | nullv : JsVal α
  | val : α → JsVal α
deriving DecidableEq, Repr, Inhabited

/-- Truthiness of a JS boolean field: only `val true` is truthy. -/
def jsTruthyBool : JsVal Bool → Bool
  | .val b => b
  | _ => false

/-- Truthiness of a JS string field: `undefined`, `null` and `""` are falsy. -/
def jsTruthyStr : JsVal String → Bool
  | .val s => !(s == "")
  | _ => false

/-- The JS idiom `x || 0` on an optional number. -/
def jsNumOr0 : JsVal Nat → Nat
  | .val n => n
  | _ => 0

/-- Outcome of a `fetch` call: either the promise rejected (an exception was
thrown) or a response value was produced. -/
inductive FetchOutcome (α : Type) where
  | thrown : FetchOutcome α
  | resp : α → FetchOutcome α
deriving DecidableEq, Repr, Inhabited

/-- Whether a fetch outcome is a thrown exception. -/
def FetchOutcome.isThrown : FetchOutcome α → Bool
  | .thrown => true
  | .resp _ => false

/-- `l` with the element at position `i` replaced by `f` of it (JS
`arr[i] = {...arr[i], ...}`); out-of-range indices leave the list unchanged. -/
def listModify (l : List α) (i : Nat) (f : α → α) : List α :=
  match l, i with
  | [], _ => []
  | a :: t, 0 => f a :: t
  | a :: t, i + 1 => a :: listModify t i f

/-- JS `Array.prototype.findIndex`, with `-1` rendered as `none`. -/
def jsFindIndex (p : α → Bool) : List α → Option Nat
  | [] => none
  | a :: t => if p a then some 0 else (jsFindIndex p t).map (· + 1)

/-- Total list access: the element at `i`, or `d` when out of range. -/
def listGetD (l : List α) (i : Nat) (d : α) : α := (l.get? i).getD d

/-! ## String primitives, embedded structurally -/

/-- Split a character list at every occurrence of `sep`, keeping empty
segments, accumulator-style. -/
def splitCharsAux (sep : Char) : List Char → List Char → List (List Char)
  | [], acc => [acc.reverse]
  | c :: rest, acc =>
    if c = sep then acc.reverse :: splitCharsAux sep rest []
    else splitCharsAux sep rest (c :: acc)

/-- JS `String.prototype.split` with a one-character separator: `""` splits
to `[""]`, and every separator occurrence produces a boundary. -/
def jsSplit (sep : Char) (s : String) : List String :=
  (splitCharsAux sep s.data []).map (fun l => ⟨l⟩)

/-- ASCII lower-casing of one character. -/
def lowerChar (c : Char) : Char :=
  if 'A' ≤ c && c ≤ 'Z' then Char.ofNat (c.toNat + 32) else c

/-- ASCII lower-casing of a string (`String.prototype.toLowerCase` on the
ASCII inputs this code base deals in). -/
def asciiLower (s : String) : String := ⟨s.data.map lowerChar⟩

/-- Does the first list begin with the second? -/
def listLeads [DecidableEq α] : List α → List α → Bool
  | _, [] => true
  | [], _ :: _ => false
  | a :: s, b :: t => a = b && listLeads s t

/-- JS `String.prototype.startsWith`. -/
def jsStartsWith (s p : String) : Bool := listLeads s.data p.data

/-- JS `Array.prototype.join('.')` on a list of strings. -/
def joinDot : List String → String
  | [] => ""
  | [s] => s
  | s :: t :: rest => s ++ "." ++ joinDot (t :: rest)

/-! ## The verify-email route: pure leaf checks -/

/-- Character class `[a-zA-Z0-9._%+-]` of the local part of the route's
email regex. -/
def isLocalChar (c : Char) : Bool :=
  c.isAlpha || c.isDigit || c = '.' || c = '_' || c = '%' || c = '+' || c = '-'

/-- Character class `[a-zA-Z0-9.-]` of the domain body of the regex. -/
def isDomainChar (c : Char) : Bool :=
  c.isAlpha || c.isDigit || c = '.' || c = '-'

/-- The route's regex `^[a-zA-Z0-9._%+-]+@[a-zA-Z0-9.-]+\.[a-zA-Z]{2,}$`:
the string matches iff it splits at its unique `@` into a nonempty run of
local characters and a domain that consists of a nonempty run of domain
characters, a dot, and a final run of at least two ASCII letters (the letter
run cannot contain a dot, so it is exactly the part after the last dot). -/
def isValidEmail (email : String) : Bool :=
  match jsSplit '@' email with
  | [l, rest] =>
    let parts := jsSplit '.' rest
    let t := parts.getLastD ""
    let d := joinDot parts.dropLast
    !(l == "") && l.data.all isLocalChar &&
      decide (2 ≤ parts.length) &&
      !(d == "") && d.data.all isDomainChar &&
      decide (2 ≤ t.length) && t.data.all (·.isAlpha)
  | _ => false

/-- The static misspelled-domain dictionary of `suggestEmailCorrection`. -/
def commonDomainTypos (d : String) : Option String :=
  if d = "gamil.com" then some "gmail.com"
  else if d = "gmial.com" then some "gmail.com"
  else if d = "gmai.com" then some "gmail.com"
  else if d = "gmal.com" then some "gmail.com"
  else if d = "hotmal.com" then some "hotmail.com"
  else if d = "hotmial.com" then some "hotmail.com"
  else if d = "hotmil.com" then some "hotmail.com"
  else if d = "outlok.com" then some "outlook.com"
  else if d = "outllok.com" then some "outlook.com"
  else if d = "yahho.com" then some "yahoo.com"
  else if d = "yaho.com" then some "yahoo.com"
  else none

/-- The static misspelled-TLD dictionary of `suggestEmailCorrection`. -/
def commonTldTypos (t : String) : Option String :=
  if t = "con" then some "com"
  else if t = "cmo" then some "com"
  else if t = "ocm" then some "com"
  else if t = "om" then some "com"
  else if t = "nte" then some "net"
  else if t = "ogr" then some "org"
  else none

/-- `suggestEmailCorrection` from the route: split on `@` (exactly two
parts required), try the domain dictionary on the lower-cased domain, then
the TLD dictionary on the lower-cased last dot-separated label. -/
def suggestEmailCorrection (email : String) : Option String :=
  match jsSplit '@' email with
  | [localPart, domainPart] =>
    match commonDomainTypos (asciiLower domainPart) with
    | some c => some (localPart ++ "@" ++ c)
    | none =>
      let domainParts := jsSplit '.' domainPart
      if 2 ≤ domainParts.length then
        let tld := domainParts.getLastD ""
        let mainDomain := joinDot domainParts.dropLast
        match commonTldTypos (asciiLower tld) with
        | some ct => some (localPart ++ "@" ++ mainDomain ++ "." ++ ct)
        | none => none
      else none
  | _ => none

/-- The role-account local-part list of `isRoleBasedEmail`. -/
def rolePrefixList : List String :=
  ["admin", "administrator", "webmaster", "postmaster", "hostmaster",
   "support", "help", "contact", "info", "information", "sales", "marketing",
   "abuse", "security", "privacy", "legal", "billing", "hr", "jobs",
   "careers", "feedback", "media", "press", "noreply", "no-reply",
   "dev", "test", "demo", "office", "team", "hello", "mail"]

/-- `isRoleBasedEmail`: lower-cased local part starts with a role word. -/
def isRoleBasedEmail (email : String) : Bool :=
  let localPart := asciiLower (((jsSplit '@' email).get? 0).getD "")
  if localPart == "" then false
  else rolePrefixList.any (fun p => jsStartsWith localPart p)

/-- The fixed disposable-domain list of `isDisposableEmail`. -/
def disposableDomains : List String :=
  ["mailinator.com", "tempmail.com", "temp-mail.org", "guerrillamail.com",
   "throwawaymail.com", "10minutemail.com", "yopmail.com", "trashmail.com",
   "dispostable.com", "sharklasers.com", "grr.la", "guerrillamail.info",
   "fakeinbox.com", "mailnesia.com", "mailcatch.com", "tempr.email",
   "tempmail.net", "discard.email", "maildrop.cc", "getairmail.com"]

/-- `isDisposableEmail`: lower-cased part after `@` is in the fixed list. -/
def isDisposableEmail (email : String) : Bool :=
  match (jsSplit '@' email).get? 1 with
  | some d => disposableDomains.contains (asciiLower d)
  | none => false

/-- The part after `@` as the route reads it (`email.split('@')[1]`),
with a missing part collapsed to `""` (both are falsy in JS). -/
def domainOf (email : String) : String :=
  ((jsSplit '@' email).get? 1).getD ""

/-- `hasMxRecords`: resolve MX over the DNS oracle; a resolution error is
caught and returned as `false`, a result is `true` iff nonempty. -/
def hasMxRecords (mx : String → Except Unit (List Unit)) (domain : String) : Bool :=
  match mx domain with
  | .ok records => decide (0 < records.length)
  | .error _ => false

/-- `verifyEmailWithSES`: re-checks syntax, then sends the SES command
through the oracle; an SES error is caught and mapped to `false`.  Returns
the result together with whether the SES send actually happened. -/
def verifyEmailWithSES (email : String) (ses : String → Except Unit Unit) : Bool × Bool :=
  if !isValidEmail email then (false, false)
  else
    match ses email with
    | .ok _ => (true, true)
    | .error _ => (false, true)

/-- The four consumer providers used by the quality classification. -/
def personalDomains : List String :=
  ["gmail.com", "outlook.com", "hotmail.com", "yahoo.com"]

/-- Quality classification of the full verify-email route: the domain is
lower-cased before membership in the provider list is tested. -/
def emailQualityRoute1 (domain : String) : String :=
  if personalDomains.contains (asciiLower domain) then "personal" else "business"

/-- Quality classification of the second (plain) verify-email route: the
domain is tested against the provider list without case normalization. -/
def emailQualityRoute2 (domain : String) : String :=
  if personalDomains.contains domain then "personal" else "business"

/-- The second route's quality computation on a whole address: it extracts
`email.split('@')[1]` and classifies only when that part is truthy,
otherwise the quality stays `null`. -/
def emailQualityOfPart2 (email : String) : Option String :=
  let d := domainOf email
  if d == "" then none else some (emailQualityRoute2 d)

/-! ## The verify-email route: response assembly -/

/-- The `details` object of a verify-email response.  `roleBased`,
`verified` and `quality` are absent (`none`) on the branches that do not
set them. -/
structure RespDetails where
  format : Bool
  domain : Bool
  disposable : Bool
  mxRecords : Bool
  roleBased : Option Bool := none
  verified : Option Bool := none
  quality : Option String := none
deriving DecidableEq, Repr, Inhabited

/-- A verify-email JSON response; fields absent from a branch are `none`.
The `suggestion` field distinguishes "absent" (outer `none`) from
"present but null" (`some none`). -/
structure ApiResponse where
  valid : Bool
  message : String
  email : Option String := none
  isVerified : Option Bool := none
  emailQuality : Option String := none
  suggestion : Option (Option String) := none
  details : Option RespDetails := none
  confidence : Option String := none
  status : Nat := 200
deriving DecidableEq, Repr, Inhabited

/-- Result of one POST to the verify-email route: the response plus which
network collaborators were actually invoked. -/
structure PostResult where
  resp : ApiResponse
  mxCalled : Bool
  sesCalled : Bool
deriving DecidableEq, Repr, Inhabited

/-- The POST handler of the full verify-email route (authenticated path),
as a function of the submitted email and the two network oracles. -/
def postVerify (email : String) (mx : String → Except Unit (List Unit))
    (ses : String → Except Unit Unit) : PostResult :=
  if email == "" then
    { resp := { valid := false, message := "Email is required", status := 400 },
      mxCalled := false, sesCalled := false }
  else if !isValidEmail email then
    { resp := { valid := false, message := "Invalid email format",
                suggestion := some (suggestEmailCorrection email),
                details := some { format := false, domain := false, disposable := false,
                                  mxRecords := false,
                                  roleBased := some (isRoleBasedEmail email) } },
      mxCalled := false, sesCalled := false }
  else
    let domain := domainOf email
    if domain == "" then
      { resp := { valid := false, message := "Invalid email domain",
                  details := some { format := true, domain := false, disposable := false,
                                    mxRecords := false } },
        mxCalled := false, sesCalled := false }
    else
      let isDisposable := isDisposableEmail email
      let isRole := isRoleBasedEmail email
      let suggestion := suggestEmailCorrection email
      let hasMx := hasMxRecords mx domain
      let quality := emailQualityRoute1 domain
      if !hasMx then
        { resp := { valid := false,
                    message := "Email domain does not have valid mail servers",
                    isVerified := some false, emailQuality := some quality,
                    suggestion := some suggestion,
                    details := some { format := true, domain := true,
                                      disposable := isDisposable, mxRecords := false,
                                      roleBased := some isRole } },
          mxCalled := true, sesCalled := false }
      else if isDisposable then
        { resp := { valid := false,
                    message := "Disposable email addresses are not allowed",
                    isVerified := some false, emailQuality := some quality,
                    suggestion := some suggestion,
                    details := some { format := true, domain := true,
                                      disposable := true, mxRecords := hasMx,
                                      roleBased := some isRole } },
          mxCalled := true, sesCalled := false }
      else
        let v := verifyEmailWithSES email ses
        let isVerified := v.1
        let isValid := isVerified && !isDisposable
        { resp := { valid := isValid,
                    message :=
                      if isValid then "Email appears to be valid and deliverable"
                      else if isDisposable then "Email appears to be from a disposable domain"
                      else if !isVerified then
                        "Email verification failed. The email address may not exist or may be unreachable."
                      else "",
                    email := some email,
                    isVerified := some isVerified,
                    emailQuality := some quality,
                    suggestion := some suggestion,
                    details := some { format := true, domain := true,
                                      disposable := isDisposable, mxRecords := hasMx,
                                      roleBased := some isRole,
                                      verified := some isVerified,
                                      quality := some quality },
                    confidence :=
                      some (if isVerified then "high"
                            else if hasMx then "medium" else "low") },
          mxCalled := true, sesCalled := v.2 }

/-! ## The bulk-results component -/

/-- One row of the bulk results table (`BulkResultRecord`).  `foundEmail`
is `string | null`; `personalEmails`, `isVerified`, `emailQuality`,
`retryCount` and `lastRetry` are optional fields that may be `undefined`
(and the middle three may also be `null`).  Dates are modelled as natural
number timestamps. -/
structure BulkRecord where
  firstName : String
  lastName : String
  linkedin : String
  companyName : String
  foundEmail : Option String
  personalEmails : JsVal (List String)
  isVerified : JsVal Bool
  emailQuality : JsVal String
  retryCount : JsVal Nat
  lastRetry : JsVal Nat
deriving DecidableEq, Repr, Inhabited

/-- The JSON body the verify-email route hands back to the component, as
the component reads it (`response.ok`, `data.isVerified`,
`data.emailQuality`); fields the route did not set are `undefined`. -/
structure VerifyApiData where
  ok : Bool
  isVerified : JsVal Bool
  emailQuality : JsVal String
deriving DecidableEq, Repr, Inhabited

/-- The JSON body of the find-email discovery route as `retryFindEmail`
reads it (`response.ok`, `data.email`, `data.personalEmails`). -/
structure FindApiData where
  ok : Bool
  email : JsVal String
  personalEmails : JsVal (List String)
deriving DecidableEq, Repr, Inhabited

/-- The filter of `verifyAllEmails`:
`record.foundEmail && record.isVerified === undefined`. -/
def selectedForVerify (r : BulkRecord) : Bool :=
  (match r.foundEmail with
   | some s => !(s == "")
   | none => false) && r.isVerified == JsVal.undef

/-- A record whose `isVerified` is defined (not `undefined`). -/
def definedVer (r : BulkRecord) : Bool := !(r.isVerified == JsVal.undef)

/-- The record update both verify paths perform on a 200 response:
`isVerified` is overwritten with `data.isVerified` and `emailQuality`
with `data.emailQuality || old`. -/
def applyVerifyData (r : BulkRecord) (d : VerifyApiData) : BulkRecord :=
  { r with isVerified := d.isVerified,
           emailQuality := if jsTruthyStr d.emailQuality then d.emailQuality else r.emailQuality }

/-- Mutable state of one `verifyAllEmails` run: the working copy of the
record list, the two counters, every snapshot published through
`setResults`, and the number of fetch calls made. -/
structure BatchState where
  results : List BulkRecord
  verifiedCount : Nat
  failedCount : Nat
  published : List (List BulkRecord)
  calls : Nat
deriving DecidableEq, Repr, Inhabited

/-- One iteration's fetch and bookkeeping: a thrown call or a non-ok
response only bumps `failedCount`; an ok response updates the record at
`idx` and bumps `verifiedCount` or `failedCount` by the truthiness of
`data.isVerified`. -/
def verifyFetchStep (st : BatchState) (idx : Nat) (o : FetchOutcome VerifyApiData) : BatchState :=
  match o with
  | .thrown =>
    { st with failedCount := st.failedCount + 1, calls := st.calls + 1 }
  | .resp d =>
    if d.ok then
      { st with
        results := listModify st.results idx (fun r => applyVerifyData r d),
        verifiedCount := if jsTruthyBool d.isVerified then st.verifiedCount + 1 else st.verifiedCount,
        failedCount := if jsTruthyBool d.isVerified then st.failedCount else st.failedCount + 1,
        calls := st.calls + 1 }
    else
      { st with failedCount := st.failedCount + 1, calls := st.calls + 1 }

/-- The progress snapshot: on every fifth iteration and on the last one the
current working copy is published. -/
def publishIf (total i : Nat) (st : BatchState) : BatchState :=
  if i % 5 = 0 || i = total - 1 then { st with published := st.published ++ [st.results] }
  else st

/-- The body of the `verifyAllEmails` loop over the selected email strings.
Each iteration looks the email up in the ORIGINAL list (`findIndex` on
`results`), continues when it is absent, and otherwise fetches, updates and
maybe publishes. -/
def verifyLoop (orig : List BulkRecord) (net : Nat → FetchOutcome VerifyApiData)
    (total : Nat) : List String → Nat → BatchState → BatchState
  | [], _, st => st
  | email :: rest, i, st =>
    match jsFindIndex (fun r => r.foundEmail == some email) orig with
    | none => verifyLoop orig net total rest (i + 1) st
    | some idx =>
      verifyLoop orig net total rest (i + 1) (publishIf total i (verifyFetchStep st idx (net i)))

/-- The emails `verifyAllEmails` selects:
`results.filter(foundEmail && isVerified === undefined).map(foundEmail!)`. -/
def selectedEmails (results : List BulkRecord) : List String :=
  (results.filter selectedForVerify).map (fun r => r.foundEmail.getD "")

/-- The state at the start of a batch run. -/
def initState (results : List BulkRecord) : BatchState :=
  { results := results, verifiedCount := 0, failedCount := 0, published := [], calls := 0 }

/-- `verifyAllEmails`: when nothing is selected the function returns before
processing anything; otherwise it runs the loop over the selected emails
and always publishes the final working copy after the loop.  The network
oracle gives the outcome of the `i`-th iteration's fetch. -/
def verifyAllEmails (results : List BulkRecord) (net : Nat → FetchOutcome VerifyApiData) :
    BatchState :=
  let emails := selectedEmails results
  if emails.isEmpty then initState results
  else
    let fin := verifyLoop results net emails.length emails 0 (initState results)
    { fin with published := fin.published ++ [fin.results] }

/-- The single-record `verifyEmail` handler: on an ok response the record
at `index` is updated in a copy of the list; a non-ok response or a thrown
call leaves the list untouched. -/
def verifyEmailSingle (results : List BulkRecord) (index : Nat)
    (o : FetchOutcome VerifyApiData) : List BulkRecord :=
  match o with
  | .thrown => results
  | .resp d =>
    if d.ok then listModify results index (fun r => applyVerifyData r d)
    else results

/-- `retryFindEmail` on `(record, index)`: on an ok response the record at
`index` is replaced by a copy with `foundEmail := data.email || null`,
`personalEmails := data.personalEmails || []`, `isVerified` and
`emailQuality` reset to `undefined`, `retryCount := (record.retryCount || 0) + 1`
(read from the `record` argument) and `lastRetry := new Date()` (the `now`
argument); a non-ok response or a thrown call leaves the list untouched. -/
def retryFindEmail (results : List BulkRecord) (record : BulkRecord) (index : Nat)
    (o : FetchOutcome FindApiData) (now : Nat) : List BulkRecord :=
  match o with
  | .thrown => results
  | .resp d =>
    if d.ok then
      listModify results index (fun old =>
        { old with
          foundEmail := (match d.email with
                         | .val s => if s == "" then none else some s
                         | _ => none),
          personalEmails := (match d.personalEmails with
                             | .val l => .val l
                             | _ => .val []),
          isVerified := .undef,
          emailQuality := .undef,
          retryCount := .val (jsNumOr0 record.retryCount + 1),
          lastRetry := .val now })
    else results

/-- Number of failed iterations (thrown, non-ok, or ok with falsy
`isVerified`) among `n` consecutive fetches starting at call index `i`. -/
def countFailedFrom (net : Nat → FetchOutcome VerifyApiData) (i : Nat) : Nat → Nat
  | 0 => 0
  | n + 1 =>
    (match net i with
     | .thrown => 1
     | .resp d => if d.ok then (if jsTruthyBool d.isVerified then 0 else 1) else 1) +
    countFailedFrom net (i + 1) n

/-- Number of thrown exceptions among `n` consecutive fetches starting at
call index `i`. -/
def countThrownFrom (net : Nat → FetchOutcome VerifyApiData) (i : Nat) : Nat → Nat
  | 0 => 0
  | n + 1 => (if (net i).isThrown then 1 else 0) + countThrownFrom net (i + 1) n

/-- A bulk record with the given `foundEmail` and `isVerified` and all
other fields blank, used for concrete evaluations. -/
def mkRec (fe : Option String) (iv : JsVal Bool) : BulkRecord :=
  { firstName := "", lastName := "", linkedin := "", companyName := "",
    foundEmail := fe, personalEmails := .undef, isVerified := iv,
    emailQuality := .undef, retryCount := .undef, lastRetry := .undef }

/-- A network oracle whose every call returns a 200 response carrying
`isVerified: false`. -/
def netOkNotVerified : Nat → FetchOutcome VerifyApiData :=
  fun _ => .resp { ok := true, isVerified := .val false, emailQuality := .undef }

/-- A network oracle whose every call throws. -/
def netThrow : Nat → FetchOutcome VerifyApiData := fun _ => .thrown

/-- A two-record batch in which both records carry the same `foundEmail`,
the first already verified and the second not yet checked. -/
def batchDupEmail : List BulkRecord :=
  [mkRec (some "a@b.com") (.val true), mkRec (some "a@b.com") .undef]

/-- A two-record batch with distinct emails: one verified, one unchecked. -/
def batchTwoDistinct : List BulkRecord :=
  [mkRec (some "x@y.com") (.val true), mkRec (some "a@b.com") .undef]

/-- A batch holding a single unchecked record. -/
def batchOneSelected : List BulkRecord := [mkRec (some "a@b.com") .undef]

/-- A DNS oracle whose every lookup fails. -/
def mxErr : String → Except Unit (List Unit) := fun _ => .error ()

/-- A DNS oracle that resolves every lookup to zero MX records. -/
def mxZero : String → Except Unit (List Unit) := fun _ => .ok []

/-- A DNS oracle that always resolves one MX record. -/
def mxOne : String → Except Unit (List Unit) := fun _ => .ok [()]

/-- An SES oracle whose every send fails. -/
def sesErr : String → Except Unit Unit := fun _ => .error ()

/-- An SES oracle whose every send succeeds. -/
def sesOk : String → Except Unit Unit := fun _ => .ok ()

/-! ## Helper lemmas -/

lemma listModify_length (l : List α) (i : Nat) (f : α → α) :
    (listModify l i f).length = l.length := by
  induction l generalizing i with
  | nil => rfl
  | cons a t ih =>
    cases i with
    | zero => rfl
    | succ i => simpa [listModify] using ih i

lemma listModify_get?_ne (l : List α) (i j : Nat) (f : α → α) (h : j ≠ i) :
    (listModify l i f).get? j = l.get? j := by
  induction l generalizing i j with
  | nil => rfl
  | cons a t ih =>
    cases i with
    | zero =>
      cases j with
      | zero => exact absurd rfl h
      | succ j => rfl
    | succ i =>
      cases j with
      | zero => rfl
      | succ j => simpa [listModify] using ih i j (fun hc => h (by omega))

lemma listModify_get?_self (l : List α) (i : Nat) (f : α → α) :
    (listModify l i f).get? i = (l.get? i).map f := by
  induction l generalizing i with
  | nil => rfl
  | cons a t ih =>
    cases i with
    | zero => rfl
    | succ i => simpa [listModify] using ih i

lemma jsFindIndex_spec (p : α → Bool) (l : List α) (k : Nat)
    (h : jsFindIndex p l = some k) : ∃ a, l.get? k = some a ∧ p a = true := by
  induction l generalizing k with
  | nil => simp [jsFindIndex] at h
  | cons a t ih =>
    by_cases hp : p a = true
    · simp [jsFindIndex, hp] at h
      exact h ▸ ⟨a, rfl, hp⟩
    · simp [jsFindIndex, hp] at h
      obtain ⟨k', hk', rfl⟩ := h
      obtain ⟨b, hb, hpb⟩ := ih k' hk'
      exact ⟨b, by simpa using hb, hpb⟩

lemma jsFindIndex_isSome_of_mem (p : α → Bool) (l : List α) (a : α)
    (ha : a ∈ l) (hp : p a = true) : (jsFindIndex p l).isSome = true := by
  induction l with
  | nil => cases ha
  | cons b t ih =>
    by_cases hb : p b = true
    · simp [jsFindIndex, hb]
    · rcases List.mem_cons.mp ha with rfl | hmem
      · exact absurd hp hb
      · simp [jsFindIndex, hb, Option.isSome_map]
        simpa using ih hmem

lemma valid_email_shape (email : String) (h : isValidEmail email = true) :
    ∃ l rest, jsSplit '@' email = [l, rest] ∧ rest ≠ "" := by
  unfold isValidEmail at h
  rcases hs : jsSplit '@' email with _ | ⟨l, _ | ⟨rest, _ | _⟩⟩ <;> rw [hs] at h <;>
    simp only [Bool.and_eq_true, decide_eq_true_eq] at h
  · exact absurd h (by simp)
  · exact absurd h (by simp)
  · refine ⟨l, rest, rfl, ?_⟩
    rintro rfl
    have := h.1.1.1.1.2
    simp [jsSplit, splitCharsAux] at this
  · exact absurd h (by simp)

lemma valid_email_facts (email : String) (h : isValidEmail email = true) :
    (email == "") = false ∧ (domainOf email == "") = false := by
  obtain ⟨l, rest, hs, hr⟩ := valid_email_shape email h
  constructor
  · rw [beq_eq_false_iff_ne]
    rintro rfl
    have : jsSplit '@' "" = [""] := by decide
    rw [this] at hs
    exact absurd hs (by simp)
  · have hd : domainOf email = rest := by simp [domainOf, hs]
    rw [hd, beq_eq_false_iff_ne]
    exact hr

lemma domainOf_eq_of_shape (email l rest : String) (hs : jsSplit '@' email = [l, rest]) :
    domainOf email = rest := by simp [domainOf, hs]

/-! ## Batch-loop lemmas -/

lemma listGetD_eq_get? (l : List α) (i : Nat) (d : α) :
    listGetD l i d = (l.get? i).getD d := rfl

lemma get?_some_lt (l : List α) (n : Nat) (a : α) (h : l.get? n = some a) :
    n < l.length := by
  induction l generalizing n with
  | nil => simp at h
  | cons b t ih =>
    cases n with
    | zero => simp
    | succ n => simpa using ih n (by simpa using h)

lemma mem_exists_get? (a : α) (l : List α) (h : a ∈ l) : ∃ n, l.get? n = some a := by
  induction l with
  | nil => cases h
  | cons b t ih =>
    rcases List.mem_cons.mp h with rfl | hmem
    · exact ⟨0, rfl⟩
    · obtain ⟨n, hn⟩ := ih hmem
      exact ⟨n + 1, by simpa using hn⟩

lemma listGetD_of_get? (l : List α) (n : Nat) (a d : α) (h : l.get? n = some a) :
    listGetD l n d = a := by unfold listGetD; rw [h]; rfl

lemma listModify_getD_proj {β : Type} (g : α → β) (f : α → α) (hf : ∀ a, g (f a) = g a)
    (l : List α) (i j : Nat) (d : α) :
    g (listGetD (listModify l i f) j d) = g (listGetD l j d) := by
  rcases eq_or_ne j i with rfl | hne
  · rw [listGetD, listGetD, listModify_get?_self]
    cases l.get? j <;> simp [hf]
  · rw [listGetD, listGetD, listModify_get?_ne _ _ _ _ hne]

lemma listModify_getD_ne (l : List α) (i j : Nat) (f : α → α) (d : α) (h : j ≠ i) :
    listGetD (listModify l i f) j d = listGetD l j d := by
  rw [listGetD, listGetD, listModify_get?_ne _ _ _ _ h]

/-- `applyVerifyData` never touches `retryCount`. -/
lemma applyVerifyData_retryCount (r : BulkRecord) (d : VerifyApiData) :
    (applyVerifyData r d).retryCount = r.retryCount := rfl

/-- `verifyFetchStep` preserves the length of the working list. -/
lemma verifyFetchStep_length (st : BatchState) (idx : Nat) (o : FetchOutcome VerifyApiData) :
    (verifyFetchStep st idx o).results.length = st.results.length := by
  cases o with
  | thrown => rfl
  | resp d =>
    by_cases hok : d.ok = true <;> simp [verifyFetchStep, hok, listModify_length]

/-- `verifyFetchStep` increments the call counter by one. -/
lemma verifyFetchStep_calls (st : BatchState) (idx : Nat) (o : FetchOutcome VerifyApiData) :
    (verifyFetchStep st idx o).calls = st.calls + 1 := by
  cases o with
  | thrown => rfl
  | resp d =>
    by_cases hok : d.ok = true <;> simp [verifyFetchStep, hok]

/-- `verifyFetchStep` can only change the record at the index it targets. -/
lemma verifyFetchStep_getD_ne (st : BatchState) (idx : Nat) (o : FetchOutcome VerifyApiData)
    (j : Nat) (h : j ≠ idx) :
    listGetD (verifyFetchStep st idx o).results j default = listGetD st.results j default := by
  cases o with
  | thrown => rfl
  | resp d =>
    by_cases hok : d.ok = true <;> simp [verifyFetchStep, hok, listModify_getD_ne _ _ _ _ _ h]

/-- `verifyFetchStep` adds one failure exactly when the outcome is thrown,
non-ok, or ok with falsy `isVerified`. -/
lemma verifyFetchStep_failed (st : BatchState) (idx : Nat) (o : FetchOutcome VerifyApiData) :
    (verifyFetchStep st idx o).failedCount =
      st.failedCount +
        (match o with
         | .thrown => 1
         | .resp d => if d.ok then (if jsTruthyBool d.isVerified then 0 else 1) else 1) := by
  cases o with
  | thrown => rfl
  | resp d =>
    by_cases hok : d.ok = true <;> by_cases hv : jsTruthyBool d.isVerified = true <;>
      simp [verifyFetchStep, hok, hv]

/-- `verifyFetchStep` preserves every record's `retryCount`. -/
lemma verifyFetchStep_retryCount (st : BatchState) (idx : Nat)
    (o : FetchOutcome VerifyApiData) (j : Nat) :
    (listGetD (verifyFetchStep st idx o).results j default).retryCount =
      (listGetD st.results j default).retryCount := by
  cases o with
  | thrown => rfl
  | resp d =>
    by_cases hok : d.ok = true <;>
      simp [verifyFetchStep, hok,
        listModify_getD_proj (fun r => r.retryCount) _ (fun r => applyVerifyData_retryCount r d)]

/-- `publishIf` only appends to the published snapshots. -/
lemma publishIf_results (total i : Nat) (st : BatchState) :
    (publishIf total i st).results = st.results ∧
    (publishIf total i st).calls = st.calls ∧
    (publishIf total i st).failedCount = st.failedCount := by
  unfold publishIf
  by_cases h : (i % 5 = 0 || i = total - 1) = true <;> simp [h]

/-- Selected emails are always findable in the original list, so every
iteration of the loop performs its fetch. -/
lemma selectedEmails_findable (results : List BulkRecord) :
    ∀ e ∈ selectedEmails results,
      (jsFindIndex (fun r => r.foundEmail == some e) results).isSome = true := by
  intro e he
  simp only [selectedEmails, List.mem_map, List.mem_filter] at he
  obtain ⟨r, ⟨hrmem, hrsel⟩, rfl⟩ := he
  cases hfe : r.foundEmail with
  | none => simp [selectedForVerify, hfe] at hrsel
  | some s =>
    exact jsFindIndex_isSome_of_mem _ _ r hrmem (by simp [hfe])

/-- The frame-and-calls invariant of the `verifyAllEmails` loop: when every
email in the remaining work list resolves (via `findIndex` over the
original list) to a selected index, the loop changes no record at a
non-selected index, keeps the length, and performs one call per email. -/
lemma verifyLoop_frame_calls (orig : List BulkRecord)
    (net : Nat → FetchOutcome VerifyApiData) (total : Nat) :
    ∀ emails i st,
      (∀ e ∈ emails, (jsFindIndex (fun r => r.foundEmail == some e) orig).isSome = true) →
      (∀ e ∈ emails, ∀ k, jsFindIndex (fun r => r.foundEmail == some e) orig = some k →
        selectedForVerify (listGetD orig k default) = true) →
      st.results.length = orig.length →
      (∀ j, selectedForVerify (listGetD orig j default) = false →
        listGetD st.results j default = listGetD orig j default) →
      ((verifyLoop orig net total emails i st).results.length = orig.length ∧
       (∀ j, selectedForVerify (listGetD orig j default) = false →
         listGetD (verifyLoop orig net total emails i st).results j default
           = listGetD orig j default) ∧
       (verifyLoop orig net total emails i st).calls = st.calls + emails.length) := by
  intro emails
  induction emails with
  | nil => intro i st _ _ hlen hframe; exact ⟨hlen, hframe, rfl⟩
  | cons e rest ih =>
    intro i st hsome hsel hlen hframe
    have hesome := hsome e (List.mem_cons_self e rest)
    cases hfi : jsFindIndex (fun r => r.foundEmail == some e) orig with
    | none => rw [hfi] at hesome; simp at hesome
    | some k =>
      have hksel : selectedForVerify (listGetD orig k default) = true :=
        hsel e (List.mem_cons_self e rest) k hfi
      have hrest_some : ∀ e' ∈ rest,
          (jsFindIndex (fun r => r.foundEmail == some e') orig).isSome = true :=
        fun e' he' => hsome e' (List.mem_cons_of_mem e he')
      have hrest_sel : ∀ e' ∈ rest, ∀ k',
          jsFindIndex (fun r => r.foundEmail == some e') orig = some k' →
          selectedForVerify (listGetD orig k' default) = true :=
        fun e' he' => hsel e' (List.mem_cons_of_mem e he')
      have hstep := verifyFetchStep_length st k (net i)
      have hpub := publishIf_results total i (verifyFetchStep st k (net i))
      have hnext := ih (i + 1) (publishIf total i (verifyFetchStep st k (net i)))
        hrest_some hrest_sel
        (by rw [hpub.1, hstep, hlen])
        (by
          intro j hj
          rw [hpub.1]
          have hne : j ≠ k := by
            rintro rfl
            rw [hksel] at hj
            cases hj
          rw [verifyFetchStep_getD_ne st k (net i) j hne]
          exact hframe j hj)
      refine ⟨?_, ?_, ?_⟩
      · simpa [verifyLoop, hfi] using hnext.1
      · intro j hj
        have := hnext.2.1 j hj
        simpa [verifyLoop, hfi] using this
      · have hc := hnext.2.2
        rw [hpub.2.1, verifyFetchStep_calls] at hc
        simp only [verifyLoop, hfi]
        rw [hc]
        simp [List.length_cons]
        omega

/-- The counter invariant of the loop: one call per email, and the failure
counter advances by exactly the count of failing outcomes. -/
lemma verifyLoop_counts (orig : List BulkRecord)
    (net : Nat → FetchOutcome VerifyApiData) (total : Nat) :
    ∀ emails i st,
      (∀ e ∈ emails, (jsFindIndex (fun r => r.foundEmail == some e) orig).isSome = true) →
      ((verifyLoop orig net total emails i st).calls = st.calls + emails.length ∧
       (verifyLoop orig net total emails i st).failedCount
         = st.failedCount + countFailedFrom net i emails.length) := by
  intro emails
  induction emails with
  | nil => intro i st _; exact ⟨rfl, rfl⟩
  | cons e rest ih =>
    intro i st hsome
    have hesome := hsome e (List.mem_cons_self e rest)
    cases hfi : jsFindIndex (fun r => r.foundEmail == some e) orig with
    | none => rw [hfi] at hesome; simp at hesome
    | some k =>
      have hnext := ih (i + 1) (publishIf total i (verifyFetchStep st k (net i)))
        (fun e' he' => hsome e' (List.mem_cons_of_mem e he'))
      have hpub := publishIf_results total i (verifyFetchStep st k (net i))
      refine ⟨?_, ?_⟩
      · have hc := hnext.1
        rw [hpub.2.1, verifyFetchStep_calls] at hc
        simp only [verifyLoop, hfi]
        rw [hc]
        simp [List.length_cons]
        omega
      · have hc := hnext.2
        rw [hpub.2.2, verifyFetchStep_failed] at hc
        simp only [verifyLoop, hfi]
        rw [hc]
        simp only [countFailedFrom]
        omega

/-- The loop never changes any record's `retryCount`. -/
lemma verifyLoop_retryCount (orig : List BulkRecord)
    (net : Nat → FetchOutcome VerifyApiData) (total : Nat) :
    ∀ emails i st,
      (∀ j, (listGetD st.results j default).retryCount
          = (listGetD orig j default).retryCount) →
      ∀ j, (listGetD (verifyLoop orig net total emails i st).results j default).retryCount
          = (listGetD orig j default).retryCount := by
  intro emails
  induction emails with
  | nil => intro i st h; exact h
  | cons e rest ih =>
    intro i st h j
    cases hfi : jsFindIndex (fun r => r.foundEmail == some e) orig with
    | none =>
      simp only [verifyLoop, hfi]
      exact ih (i + 1) st h j
    | some k =>
      simp only [verifyLoop, hfi]
      refine ih (i + 1) _ ?_ j
      intro j'
      rw [(publishIf_results total i _).1, verifyFetchStep_retryCount]
      exact h j'

/-- Counting complements: when `p` is pointwise the negation of `q` on the
members of `l`, the two counts split the length. -/
lemma countP_compl_split (l : List α) (p q : α → Bool)
    (h : ∀ a ∈ l, p a = !q a) : l.countP p + l.countP q = l.length := by
  induction l with
  | nil => simp
  | cons a t ih =>
    have ha := h a (List.mem_cons_self a t)
    have ht := ih (fun b hb => h b (List.mem_cons_of_mem a hb))
    cases hq : q a <;> rw [hq] at ha <;>
      simp [List.countP_cons, ha, hq] <;> omega

/-- A selected record has an undefined `isVerified`. -/
lemma selected_not_defined (r : BulkRecord) (h : selectedForVerify r = true) :
    definedVer r = false := by
  simp only [selectedForVerify, Bool.and_eq_true] at h
  simp [definedVer, h.2]

/-- Under the cover hypothesis, the number of selected emails is the number
of records minus the number with a defined `isVerified`. -/
lemma selectedEmails_length (results : List BulkRecord)
    (hcover : ∀ r ∈ results, definedVer r = true ∨ selectedForVerify r = true) :
    (selectedEmails results).length = results.length - results.countP definedVer := by
  have hpoint : ∀ r ∈ results, selectedForVerify r = !definedVer r := by
    intro r hr
    cases hd : definedVer r with
    | true =>
      cases hsel : selectedForVerify r with
      | false => simp
      | true => rw [selected_not_defined r hsel] at hd; cases hd
    | false =>
      rcases hcover r hr with h | h
      · rw [h] at hd; cases hd
      · simp [h]
  have hsplit := countP_compl_split results selectedForVerify definedVer hpoint
  have : (selectedEmails results).length = results.countP selectedForVerify := by
    simp [selectedEmails, List.countP_eq_length_filter]
  omega

/-- Under the no-shared-email hypothesis, `findIndex` on a selected email
lands on a selected index. -/
lemma findIndex_selected (results : List BulkRecord)
    (hinj : ∀ i, i < results.length → ∀ j, j < results.length →
        (listGetD results i default).foundEmail ≠ none →
        (listGetD results i default).foundEmail = (listGetD results j default).foundEmail →
        i = j) :
    ∀ e ∈ selectedEmails results, ∀ k,
      jsFindIndex (fun r => r.foundEmail == some e) results = some k →
      selectedForVerify (listGetD results k default) = true := by
  intro e he k hk
  simp only [selectedEmails, List.mem_map, List.mem_filter] at he
  obtain ⟨r, ⟨hrmem, hrsel⟩, rfl⟩ := he
  obtain ⟨i, hi⟩ := mem_exists_get? r results hrmem
  obtain ⟨a, hak, hap⟩ := jsFindIndex_spec _ results k hk
  have hilt := get?_some_lt results i r hi
  have hklt := get?_some_lt results k a hak
  have hgi : listGetD results i default = r := listGetD_of_get? _ _ _ _ hi
  have hgk : listGetD results k default = a := listGetD_of_get? _ _ _ _ hak
  cases hfe : r.foundEmail with
  | none => simp [selectedForVerify, hfe] at hrsel
  | some s =>
    have hae : a.foundEmail = some s := by
      have := hap
      simp [hfe] at this ⊢
      exact this
    have hki : k = i := by
      apply hinj k hklt i hilt
      · rw [hgk, hae]; simp
      · rw [hgk, hgi, hae, hfe]
    rw [hki, hgi]
    exact hrsel

/-! ## Claims about the verify-email route -/

/-- C1: every response of the verification endpoint that carries a
confidence value is a final full-pipeline response whose confidence is
computed by the exact table `high` if `isVerified`, else `medium` if
`mxRecords`, else `low`; moreover on every such response `mxRecords` is
true, so no `(isVerified, mxRecords)` combination outside the table is ever
paired with a confidence. -/
theorem confidence_table_of_final_response (email : String)
    (mx : String → Except Unit (List Unit)) (ses : String → Except Unit Unit)
    (conf : String) (h : (postVerify email mx ses).resp.confidence = some conf) :
    ∃ v d, (postVerify email mx ses).resp.isVerified = some v ∧
      (postVerify email mx ses).resp.details = some d ∧
      d.mxRecords = true ∧
      conf = (if v then "high" else if d.mxRecords then "medium" else "low") := by
  cases hb1 : (email == "") with
  | true => simp [postVerify, hb1] at h
  | false =>
  cases hb2 : isValidEmail email with
  | false => simp [postVerify, hb1, hb2] at h
  | true =>
  cases hb3 : (domainOf email == "") with
  | true => simp [postVerify, hb1, hb2, hb3] at h
  | false =>
  cases hb4 : hasMxRecords mx (domainOf email) with
  | false => simp [postVerify, hb1, hb2, hb3, hb4] at h
  | true =>
  cases hb5 : isDisposableEmail email with
  | true => simp [postVerify, hb1, hb2, hb3, hb4, hb5] at h
  | false =>
    refine ⟨(verifyEmailWithSES email ses).1,
      { format := true, domain := true, disposable := isDisposableEmail email,
        mxRecords := hasMxRecords mx (domainOf email),
        roleBased := some (isRoleBasedEmail email),
        verified := some (verifyEmailWithSES email ses).1,
        quality := some (emailQualityRoute1 (domainOf email)) }, ?_, ?_, ?_, ?_⟩ <;>
      (simp [postVerify, hb1, hb2, hb3, hb4, hb5] at h ⊢; try simp [hb4, hb5, ← h])

/-- Witness for C1 at a concrete verified address. -/
theorem confidence_table_of_final_response_witness :
    (postVerify "a@b.co" mxOne sesOk).resp.confidence = some "high" ∧
    ∃ v d, (postVerify "a@b.co" mxOne sesOk).resp.isVerified = some v ∧
      (postVerify "a@b.co" mxOne sesOk).resp.details = some d ∧
      d.mxRecords = true ∧
      "high" = (if v then "high" else if d.mxRecords then "medium" else "low") :=
  ⟨by decide, confidence_table_of_final_response "a@b.co" mxOne sesOk "high" (by decide)⟩

/-- C2 (amended): a syntactically invalid nonempty address always yields
`valid = false` with `details.format`, `domain`, `disposable` and
`mxRecords` all false, `details.roleBased` set to the role-based check of
the raw input (which may be true), and neither the MX lookup nor the
deliverability provider is invoked. -/
theorem format_fail_response (email : String)
    (mx : String → Except Unit (List Unit)) (ses : String → Except Unit Unit)
    (hne : email ≠ "") (hinv : isValidEmail email = false) :
    (postVerify email mx ses).resp.valid = false ∧
    (postVerify email mx ses).resp.details =
      some { format := false, domain := false, disposable := false, mxRecords := false,
             roleBased := some (isRoleBasedEmail email) } ∧
    (postVerify email mx ses).mxCalled = false ∧
    (postVerify email mx ses).sesCalled = false := by
  have hb1 : (email == "") = false := beq_eq_false_iff_ne.mpr hne
  simp [postVerify, hb1, hinv]

/-- Witness for C2's amended theorem at `"admin@foo"`. -/
theorem format_fail_response_witness :
    ("admin@foo" ≠ "" ∧ isValidEmail "admin@foo" = false) ∧
    ((postVerify "admin@foo" mxErr sesErr).resp.valid = false ∧
     (postVerify "admin@foo" mxErr sesErr).resp.details =
       some { format := false, domain := false, disposable := false, mxRecords := false,
              roleBased := some (isRoleBasedEmail "admin@foo") } ∧
     (postVerify "admin@foo" mxErr sesErr).mxCalled = false ∧
     (postVerify "admin@foo" mxErr sesErr).sesCalled = false) :=
  ⟨⟨by decide, by decide⟩, format_fail_response "admin@foo" mxErr sesErr (by decide) (by decide)⟩

/-- Counterexample to C2 as stated: on the malformed address
`"admin@foo"` the format-failure response carries
`details.roleBased = some true`, so not every detail field other than
`format` is false or absent. -/
theorem format_fail_role_detail_cex :
    isValidEmail "admin@foo" = false ∧
    (postVerify "admin@foo" mxErr sesErr).resp.valid = false ∧
    (postVerify "admin@foo" mxErr sesErr).resp.details =
      some { format := false, domain := false, disposable := false, mxRecords := false,
             roleBased := some true } := by
  refine ⟨by decide, by decide, by decide⟩

/-- C3: a syntactically valid address whose domain is case-insensitively in
the disposable list and whose domain has MX records gets
`valid = false` with `details.disposable = true`, and the deliverability
provider (SES) is never called on that path. -/
theorem disposable_blocks_deliverability (email : String)
    (mx : String → Except Unit (List Unit)) (ses : String → Except Unit Unit)
    (hv : isValidEmail email = true)
    (hd : disposableDomains.contains (asciiLower (domainOf email)) = true)
    (hmx : hasMxRecords mx (domainOf email) = true) :
    (postVerify email mx ses).resp.valid = false ∧
    (postVerify email mx ses).resp.details =
      some { format := true, domain := true, disposable := true, mxRecords := true,
             roleBased := some (isRoleBasedEmail email) } ∧
    (postVerify email mx ses).sesCalled = false := by
  obtain ⟨hb1, hb3⟩ := valid_email_facts email hv
  obtain ⟨l, rest, hs, -⟩ := valid_email_shape email hv
  have hdisp : isDisposableEmail email = true := by
    have hrest : domainOf email = rest := domainOf_eq_of_shape email l rest hs
    rw [hrest] at hd
    simp only [isDisposableEmail, hs]
    simpa using hd
  simp [postVerify, hb1, hv, hb3, hmx, hdisp]

/-- Witness for C3 at a concrete disposable address. -/
theorem disposable_blocks_deliverability_witness :
    (isValidEmail "a@mailinator.com" = true ∧
     disposableDomains.contains (asciiLower (domainOf "a@mailinator.com")) = true ∧
     hasMxRecords mxOne (domainOf "a@mailinator.com") = true) ∧
    ((postVerify "a@mailinator.com" mxOne sesOk).resp.valid = false ∧
     (postVerify "a@mailinator.com" mxOne sesOk).resp.details =
       some { format := true, domain := true, disposable := true, mxRecords := true,
              roleBased := some (isRoleBasedEmail "a@mailinator.com") } ∧
     (postVerify "a@mailinator.com" mxOne sesOk).sesCalled = false) :=
  ⟨⟨by decide, by decide, by decide⟩,
   disposable_blocks_deliverability "a@mailinator.com" mxOne sesOk
     (by decide) (by decide) (by decide)⟩

/-- C4 (amended): on a syntactically valid address whose MX resolution
either errors or returns zero records, the outcome is folded into "no MX
records" and the endpoint replies `valid = false`, `isVerified = false`,
the no-mail-servers message, and NO confidence field (the response omits
`confidence` rather than reporting `"low"`), without calling the
deliverability provider. -/
theorem no_mx_short_circuit (email : String)
    (mx : String → Except Unit (List Unit)) (ses : String → Except Unit Unit)
    (hv : isValidEmail email = true)
    (hmx0 : mx (domainOf email) = .error () ∨ mx (domainOf email) = .ok []) :
    hasMxRecords mx (domainOf email) = false ∧
    (postVerify email mx ses).resp.valid = false ∧
    (postVerify email mx ses).resp.message = "Email domain does not have valid mail servers" ∧
    (postVerify email mx ses).resp.isVerified = some false ∧
    (postVerify email mx ses).resp.confidence = none ∧
    (postVerify email mx ses).mxCalled = true ∧
    (postVerify email mx ses).sesCalled = false := by
  obtain ⟨hb1, hb3⟩ := valid_email_facts email hv
  have hmx : hasMxRecords mx (domainOf email) = false := by
    rcases hmx0 with herr | hzero
    · simp [hasMxRecords, herr]
    · simp [hasMxRecords, hzero]
  refine ⟨hmx, ?_⟩
  simp [postVerify, hb1, hv, hb3, hmx]

/-- Witness for C4's amended theorem at a concrete resolver returning zero
MX records. -/
theorem no_mx_short_circuit_witness :
    (isValidEmail "a@b.co" = true ∧
     (mxZero (domainOf "a@b.co") = .error () ∨ mxZero (domainOf "a@b.co") = .ok [])) ∧
    (hasMxRecords mxZero (domainOf "a@b.co") = false ∧
     (postVerify "a@b.co" mxZero sesOk).resp.valid = false ∧
     (postVerify "a@b.co" mxZero sesOk).resp.message =
       "Email domain does not have valid mail servers" ∧
     (postVerify "a@b.co" mxZero sesOk).resp.isVerified = some false ∧
     (postVerify "a@b.co" mxZero sesOk).resp.confidence = none ∧
     (postVerify "a@b.co" mxZero sesOk).mxCalled = true ∧
     (postVerify "a@b.co" mxZero sesOk).sesCalled = false) :=
  ⟨⟨by decide, Or.inr rfl⟩,
   no_mx_short_circuit "a@b.co" mxZero sesOk (by decide) (Or.inr rfl)⟩

/-- Counterexample to C4 as stated: on a valid address whose MX lookup
errors, the response has no confidence field at all, not
`confidence = "low"` as claimed. -/
theorem no_mx_confidence_cex :
    isValidEmail "a@b.co" = true ∧
    (postVerify "a@b.co" mxErr sesOk).resp.valid = false ∧
    (postVerify "a@b.co" mxErr sesOk).resp.message =
      "Email domain does not have valid mail servers" ∧
    (postVerify "a@b.co" mxErr sesOk).resp.confidence = none ∧
    (postVerify "a@b.co" mxErr sesOk).resp.confidence ≠ some "low" := by
  refine ⟨by decide, by decide, by decide, by decide, by decide⟩

/-- C8: for an address of shape `local@domain`, the typo suggester returns
`local@corrected-domain` whenever the lower-cased domain is a key of the
domain-misspelling dictionary (regardless of the TLD dictionary — the
domain lookup is performed first and wins); otherwise, when the domain has
at least two dot-separated labels, a hit of the lower-cased last label in
the TLD dictionary yields `local@registrable-domain.correct-tld` and a miss
yields no suggestion; with fewer than two labels there is no suggestion.
In particular `"foo@gamil.com"` yields `"foo@gmail.com"`. -/
theorem typo_suggester_spec (localPart domainPart email : String)
    (hs : jsSplit '@' email = [localPart, domainPart]) :
    (∀ c, commonDomainTypos (asciiLower domainPart) = some c →
        suggestEmailCorrection email = some (localPart ++ "@" ++ c)) ∧
    (commonDomainTypos (asciiLower domainPart) = none →
      (2 ≤ (jsSplit '.' domainPart).length →
        (∀ ct, commonTldTypos (asciiLower ((jsSplit '.' domainPart).getLastD "")) = some ct →
          suggestEmailCorrection email =
            some (localPart ++ "@" ++ joinDot (jsSplit '.' domainPart).dropLast ++ "." ++ ct)) ∧
        (commonTldTypos (asciiLower ((jsSplit '.' domainPart).getLastD "")) = none →
          suggestEmailCorrection email = none)) ∧
      ((jsSplit '.' domainPart).length < 2 → suggestEmailCorrection email = none)) ∧
    suggestEmailCorrection "foo@gamil.com" = some "foo@gmail.com" := by
  refine ⟨?_, ?_, by decide⟩
  · intro c hc
    simp [suggestEmailCorrection, hs, hc]
  · intro hnone
    constructor
    · intro hlen
      constructor
      · intro ct hct
        rw [List.getLastD_eq_getLast?] at hct
        simp [suggestEmailCorrection, hs, hnone, hlen, hct]
      · intro hctnone
        rw [List.getLastD_eq_getLast?] at hctnone
        simp [suggestEmailCorrection, hs, hnone, hlen, hctnone]
    · intro hlt
      have hlen : ¬ (2 ≤ (jsSplit '.' domainPart).length) := by omega
      simp [suggestEmailCorrection, hs, hnone, hlen]

/-- Witness for C8 at `"foo@gamil.com"`. -/
theorem typo_suggester_spec_witness :
    jsSplit '@' "foo@gamil.com" = ["foo", "gamil.com"] ∧
    ((∀ c, commonDomainTypos (asciiLower "gamil.com") = some c →
        suggestEmailCorrection "foo@gamil.com" = some ("foo" ++ "@" ++ c)) ∧
     suggestEmailCorrection "foo@gamil.com" = some "foo@gmail.com") :=
  ⟨by decide,
   (typo_suggester_spec "foo" "gamil.com" "foo@gamil.com" (by decide)).1,
   (typo_suggester_spec "foo" "gamil.com" "foo@gamil.com" (by decide)).2.2⟩

/-- C9 (amended): both entry points classify against the same fixed
four-provider table, mapping a provider domain to "personal" and anything
else to "business", but only the full route lower-cases the domain first;
the two classifications agree exactly on inputs whose domain is unchanged
by lower-casing. -/
theorem quality_classifiers_agree_on_lowercase (d : String)
    (h : asciiLower d = d) :
    emailQualityRoute1 d = emailQualityRoute2 d ∧
    emailQualityRoute1 d =
      (if personalDomains.contains (asciiLower d) then "personal" else "business") ∧
    emailQualityRoute2 d =
      (if personalDomains.contains d then "personal" else "business") := by
  refine ⟨?_, rfl, rfl⟩
  simp [emailQualityRoute1, emailQualityRoute2, h]

/-- Witness for C9's amended theorem at `"gmail.com"`. -/
theorem quality_classifiers_agree_on_lowercase_witness :
    asciiLower "gmail.com" = "gmail.com" ∧
    emailQualityRoute1 "gmail.com" = emailQualityRoute2 "gmail.com" :=
  ⟨by decide, (quality_classifiers_agree_on_lowercase "gmail.com" (by decide)).1⟩

/-- Counterexample to C9 as stated: on the single address
`"foo@GMAIL.com"` the full route's final response reports quality
"personal" (it lower-cases the domain) while the second entry point
computes "business" (it does not), so the two entry points do not compute
the same classification function. -/
theorem quality_classifiers_differ_cex :
    domainOf "foo@GMAIL.com" = "GMAIL.com" ∧
    (postVerify "foo@GMAIL.com" mxOne sesOk).resp.emailQuality = some "personal" ∧
    emailQualityOfPart2 "foo@GMAIL.com" = some "business" ∧
    (postVerify "foo@GMAIL.com" mxOne sesOk).resp.emailQuality ≠
      emailQualityOfPart2 "foo@GMAIL.com" := by
  refine ⟨by decide, by decide, by decide, by decide⟩

/-! ## Claims about the batch orchestrator -/

/-- C5 (amended): over a batch in which every record either has a defined
`isVerified` or is selected (non-null, nonempty `foundEmail` and undefined
`isVerified`), and in which no two records share a non-null `foundEmail`,
`verifyAll` makes exactly `N − K` network calls (`K` = records with a
defined `isVerified`), leaves every record with a defined `isVerified`
untouched, and changes at most the selected records. -/
theorem verify_all_processes_unverified (results : List BulkRecord)
    (net : Nat → FetchOutcome VerifyApiData)
    (hcover : ∀ r ∈ results, definedVer r = true ∨ selectedForVerify r = true)
    (hinj : ∀ i, i < results.length → ∀ j, j < results.length →
        (listGetD results i default).foundEmail ≠ none →
        (listGetD results i default).foundEmail = (listGetD results j default).foundEmail →
        i = j) :
    (verifyAllEmails results net).calls = results.length - results.countP definedVer ∧
    (∀ j, definedVer (listGetD results j default) = true →
      listGetD (verifyAllEmails results net).results j default = listGetD results j default) ∧
    (∀ j, listGetD (verifyAllEmails results net).results j default ≠ listGetD results j default →
      selectedForVerify (listGetD results j default) = true) := by
  have hfind := selectedEmails_findable results
  have hselidx := findIndex_selected results hinj
  have hlen := selectedEmails_length results hcover
  have hframe_list : ∀ j, selectedForVerify (listGetD results j default) = false →
      listGetD results j default = listGetD results j default := fun _ _ => rfl
  by_cases hemp : ((selectedEmails results).isEmpty) = true
  · have hnil : selectedEmails results = [] := by
      cases h : selectedEmails results with
      | nil => rfl
      | cons a t => rw [h] at hemp; simp at hemp
    rw [hnil] at hlen
    simp only [verifyAllEmails, hemp, if_true]
    refine ⟨by simpa [initState] using hlen, fun j _ => rfl, fun j hj => absurd rfl hj⟩
  · have hempf : ((selectedEmails results).isEmpty) = false := by
      cases h : (selectedEmails results).isEmpty with
      | false => rfl
      | true => exact absurd h hemp
    have hloop := verifyLoop_frame_calls results net (selectedEmails results).length
      (selectedEmails results) 0 (initState results) hfind hselidx rfl (fun j _ => rfl)
    simp only [verifyAllEmails, hempf, Bool.false_eq_true, if_false]
    refine ⟨?_, ?_, ?_⟩
    · rw [hloop.2.2]
      simpa [initState] using hlen
    · intro j hj
      have hs : selectedForVerify (listGetD results j default) = false := by
        cases hs : selectedForVerify (listGetD results j default) with
        | false => rfl
        | true => rw [selected_not_defined _ hs] at hj; cases hj
      exact hloop.2.1 j hs
    · intro j hj
      cases hs : selectedForVerify (listGetD results j default) with
      | true => rfl
      | false => exact absurd (hloop.2.1 j hs) hj

/-- Witness for C5's amended theorem on a two-record batch with distinct
emails: one call is made and the verified record is untouched. -/
theorem verify_all_processes_unverified_witness :
    ((∀ r ∈ batchTwoDistinct, definedVer r = true ∨ selectedForVerify r = true) ∧
     (∀ i, i < batchTwoDistinct.length → ∀ j, j < batchTwoDistinct.length →
        (listGetD batchTwoDistinct i default).foundEmail ≠ none →
        (listGetD batchTwoDistinct i default).foundEmail
          = (listGetD batchTwoDistinct j default).foundEmail →
        i = j)) ∧
    (verifyAllEmails batchTwoDistinct netOkNotVerified).calls
      = batchTwoDistinct.length - batchTwoDistinct.countP definedVer :=
  ⟨⟨by decide, by decide⟩,
   (verify_all_processes_unverified batchTwoDistinct netOkNotVerified
     (by decide) (by decide)).1⟩

/-- Counterexample to C5 as stated: in a batch where the two records share
one `foundEmail`, the first already verified and the second unchecked, the
single call updates the already-verified record (via `findIndex` on the
email) and leaves the selected record unchanged. -/
theorem verify_all_frame_cex :
    definedVer (listGetD batchDupEmail 0 default) = true ∧
    selectedForVerify (listGetD batchDupEmail 1 default) = true ∧
    (verifyAllEmails batchDupEmail netOkNotVerified).calls = 1 ∧
    listGetD (verifyAllEmails batchDupEmail netOkNotVerified).results 0 default
      ≠ listGetD batchDupEmail 0 default ∧
    listGetD (verifyAllEmails batchDupEmail netOkNotVerified).results 1 default
      = listGetD batchDupEmail 1 default := by
  refine ⟨by decide, by decide, by decide, by decide, by decide⟩

/-- C6 (amended): with at least one selected record, the loop always
processes every selected record (one call each) no matter which calls
throw, the final snapshot is always published after the loop, and the
failure counter ends at the number of iterations whose call threw, returned
a non-ok status, or returned an ok body with a falsy `isVerified`. -/
theorem batch_partial_failure_tolerance (results : List BulkRecord)
    (net : Nat → FetchOutcome VerifyApiData)
    (hne : selectedEmails results ≠ []) :
    (verifyAllEmails results net).calls = (selectedEmails results).length ∧
    (verifyAllEmails results net).failedCount
      = countFailedFrom net 0 (selectedEmails results).length ∧
    (verifyAllEmails results net).published.getLast?
      = some (verifyAllEmails results net).results := by
  have hfind := selectedEmails_findable results
  have hempf : ((selectedEmails results).isEmpty) = false := by
    cases h : selectedEmails results with
    | nil => exact absurd h hne
    | cons a t => rfl
  have hc := verifyLoop_counts results net (selectedEmails results).length
      (selectedEmails results) 0 (initState results) hfind
  simp only [verifyAllEmails, hempf, Bool.false_eq_true, if_false]
  refine ⟨?_, ?_, ?_⟩
  · simpa [initState] using hc.1
  · simpa [initState] using hc.2
  · simp

/-- Witness for C6's amended theorem: a one-record batch whose only call
throws still completes, publishes, and counts one failure. -/
theorem batch_partial_failure_tolerance_witness :
    (selectedEmails batchOneSelected ≠ []) ∧
    ((verifyAllEmails batchOneSelected netThrow).calls
        = (selectedEmails batchOneSelected).length ∧
     (verifyAllEmails batchOneSelected netThrow).failedCount
        = countFailedFrom netThrow 0 (selectedEmails batchOneSelected).length ∧
     (verifyAllEmails batchOneSelected netThrow).published.getLast?
        = some (verifyAllEmails batchOneSelected netThrow).results) :=
  ⟨by decide, batch_partial_failure_tolerance batchOneSelected netThrow (by decide)⟩

/-- Counterexample to C6 as stated: a batch whose single call returns a 200
response with `isVerified: false` throws no exception at all, yet the
failure counter ends at 1, so the counter does not equal the number of
per-record exceptions. -/
theorem batch_failed_count_cex :
    (verifyAllEmails batchOneSelected netOkNotVerified).failedCount = 1 ∧
    countThrownFrom netOkNotVerified 0 (selectedEmails batchOneSelected).length = 0 ∧
    (verifyAllEmails batchOneSelected netOkNotVerified).failedCount ≠
      countThrownFrom netOkNotVerified 0 (selectedEmails batchOneSelected).length := by
  refine ⟨by decide, by decide, by decide⟩

/-- C7: a successful retry of the record at `index` resets `isVerified` and
`emailQuality` to undefined, sets `retryCount` to exactly one more than the
record's previous count (undefined counting as zero), and stamps
`lastRetry`; moreover no orchestrator operation — a retry with any outcome,
a single verify with any outcome, or a whole `verifyAll` run — ever
decreases any record's `retryCount`. -/
theorem retry_resets_and_retry_count_monotone
    (results : List BulkRecord) (record : BulkRecord) (index : Nat)
    (d : FindApiData) (now : Nat)
    (fOut : FetchOutcome FindApiData) (vOut : FetchOutcome VerifyApiData)
    (net : Nat → FetchOutcome VerifyApiData)
    (hrec : results.get? index = some record)
    (hok : d.ok = true) :
    (∃ r', (retryFindEmail results record index (.resp d) now).get? index = some r' ∧
       r'.isVerified = JsVal.undef ∧ r'.emailQuality = JsVal.undef ∧
       r'.retryCount = JsVal.val (jsNumOr0 record.retryCount + 1) ∧
       r'.lastRetry = JsVal.val now) ∧
    (∀ j, jsNumOr0 (listGetD results j default).retryCount ≤
       jsNumOr0 (listGetD (retryFindEmail results record index fOut now) j default).retryCount) ∧
    (∀ j, (listGetD (verifyEmailSingle results index vOut) j default).retryCount
       = (listGetD results j default).retryCount) ∧
    (∀ j, (listGetD (verifyAllEmails results net).results j default).retryCount
       = (listGetD results j default).retryCount) := by
  refine ⟨?_, ?_, ?_, ?_⟩
  · refine ⟨{ record with
        foundEmail := (match d.email with
                       | .val s => if s == "" then none else some s
                       | _ => none),
        personalEmails := (match d.personalEmails with
                           | .val l => .val l
                           | _ => .val []),
        isVerified := .undef, emailQuality := .undef,
        retryCount := .val (jsNumOr0 record.retryCount + 1),
        lastRetry := .val now }, ?_, rfl, rfl, rfl, rfl⟩
    simp only [retryFindEmail, hok, if_true]
    rw [listModify_get?_self, hrec]
    rfl
  · intro j
    cases fOut with
    | thrown => exact le_refl _
    | resp d' =>
      by_cases hok' : d'.ok = true
      · simp only [retryFindEmail, hok', if_true]
        rcases eq_or_ne j index with rfl | hne
        · rw [listGetD, listGetD, listModify_get?_self, hrec]
          simp [jsNumOr0]
        · rw [listModify_getD_ne _ _ _ _ _ hne]
      · have hf : d'.ok = false := by
          cases h : d'.ok with
          | false => rfl
          | true => exact absurd h hok'
        simp [retryFindEmail, hf]
  · intro j
    cases vOut with
    | thrown => rfl
    | resp d' =>
      by_cases hok' : d'.ok = true
      · simp only [verifyEmailSingle, hok', if_true]
        exact listModify_getD_proj (fun r => r.retryCount) _
          (fun r => applyVerifyData_retryCount r d') results index j default
      · have hf : d'.ok = false := by
          cases h : d'.ok with
          | false => rfl
          | true => exact absurd h hok'
        simp [verifyEmailSingle, hf]
  · intro j
    by_cases hemp : ((selectedEmails results).isEmpty) = true
    · simp [verifyAllEmails, hemp, initState]
    · have hempf : ((selectedEmails results).isEmpty) = false := by
        cases h : (selectedEmails results).isEmpty with
        | false => rfl
        | true => exact absurd h hemp
      simp only [verifyAllEmails, hempf, Bool.false_eq_true, if_false]
      exact verifyLoop_retryCount results net (selectedEmails results).length
        (selectedEmails results) 0 (initState results) (fun _ => rfl) j

/-- Witness for C7 on a one-record batch with a successful discovery
response. -/
theorem retry_resets_and_retry_count_monotone_witness :
    ((batchTwoDistinct.get? 0 = some (mkRec (some "x@y.com") (.val true))) ∧
     ({ ok := true, email := .val "n@m.com", personalEmails := .undef } : FindApiData).ok
       = true) ∧
    (∃ r', (retryFindEmail batchTwoDistinct (mkRec (some "x@y.com") (.val true)) 0
         (.resp { ok := true, email := .val "n@m.com", personalEmails := .undef }) 5).get? 0
         = some r' ∧
       r'.isVerified = JsVal.undef ∧ r'.emailQuality = JsVal.undef ∧
       r'.retryCount = JsVal.val (jsNumOr0 (mkRec (some "x@y.com") (.val true)).retryCount + 1) ∧
       r'.lastRetry = JsVal.val 5) :=
  ⟨⟨by decide, rfl⟩,
   (retry_resets_and_retry_count_monotone batchTwoDistinct
     (mkRec (some "x@y.com") (.val true)) 0
     { ok := true, email := .val "n@m.com", personalEmails := .undef } 5
     .thrown .thrown netOkNotVerified (by decide) rfl).1⟩

/-- C10: a failed retry — the discovery call throws or returns a non-ok
status — leaves the record list completely unchanged: every field of every
record, including `retryCount` and `lastRetry`, keeps its previous value. -/
theorem retry_failure_leaves_records_unchanged
    (results : List BulkRecord) (record : BulkRecord) (index : Nat)
    (o : FetchOutcome FindApiData) (now : Nat)
    (h : o = .thrown ∨ ∃ d, o = .resp d ∧ d.ok = false) :
    retryFindEmail results record index o now = results := by
  rcases h with rfl | ⟨d, rfl, hok⟩
  · rfl
  · simp [retryFindEmail, hok]

/-- Witness for C10 with a thrown discovery call. -/
theorem retry_failure_leaves_records_unchanged_witness :
    ((FetchOutcome.thrown : FetchOutcome FindApiData) = .thrown ∨
     ∃ d, (FetchOutcome.thrown : FetchOutcome FindApiData) = .resp d ∧ d.ok = false) ∧
    retryFindEmail batchOneSelected (mkRec (some "a@b.com") .undef) 0 .thrown 3
      = batchOneSelected :=
  ⟨Or.inl rfl,
   retry_failure_leaves_records_unchanged batchOneSelected
     (mkRec (some "a@b.com") .undef) 0 .thrown 3 (Or.inl rfl)⟩
